import Mathlib

/-!
Verification of the SMS notification system's admission-controlled job
dispatch engine: a shallow embedding of the sliding-window rate limiter
(src/rateLimiter.js), the queue processor and retry classifier
(src/queueProcessor.js), the SMS dispatch path (src/smsService.js), the
bulk API route (src/api.js), and a spec-level model of the worker pool.

Times and Redis sorted-set scores are modelled as `Int` milliseconds
(JS `Date.now()`).  The per-identifier Redis state of the limiter
(the `rate_limit:sms:<id>` sorted set and the `rate_limit:block:<id>`
key with expiry) is an explicit record threaded through each operation.
-/

namespace SMSSystem

/-- Rate-limit configuration (config.js, `config.rateLimit`). -/
structure RateLimitConfig where
  windowMs : Nat
  maxRequests : Nat
  blockDurationMs : Nat
deriving DecidableEq

/-- Defaults from config.js: 60000 ms window, 30 requests, 300000 ms block. -/
def defaultRateLimit : RateLimitConfig :=
  { windowMs := 60000, maxRequests := 30, blockDurationMs := 300000 }

/-- Retry configuration (config.js, `config.retry`): 3 attempts, 2000 ms base delay. -/
structure RetryConfig where
  maxAttempts : Nat
  delay : Nat
deriving DecidableEq

def defaultRetry : RetryConfig := { maxAttempts := 3, delay := 2000 }

/-- Per-identifier limiter state: the scores stored in the
`rate_limit:sms:<identifier>` sorted set (each `zadd` uses a unique member,
so same-millisecond admissions are distinct entries, modelled as list
positions), and the absolute expiry time of the `rate_limit:block:<identifier>`
key (`none` when the key does not exist).
The `expire` refresh of the events key is omitted: every read prunes scores
older than `now - windowMs` first, and all scores are at most the time of the
last admission, so key expiry never removes an event that pruning would keep. -/
structure RLState where
  events : List Int
  blockUntil : Option Int
deriving DecidableEq

/-- Redis `TTL` of a key with absolute expiry `expireAt` at time `now`:
-2 when the key is absent or expired, otherwise the remaining time rounded
to the nearest second (Redis returns `(pttl+500)/1000`). -/
def redisTtl (expireAt : Option Int) (now : Int) : Int :=
  match expireAt with
  | none => -2
  | some b => if now < b then ((b - now + 500).toNat / 1000 : Nat) else -2

/-- Redis `zremrangebyscore key 0 windowStart`: drop scores in `[0, windowStart]`. -/
def pruneEvents (events : List Int) (windowStart : Int) : List Int :=
  events.filter (fun e => !(decide (0 ≤ e) && decide (e ≤ windowStart)))

/-- The decision object returned by `RateLimiter.isAllowed` / `getStatus`.
`blockDuration` is `none` on the branches whose JS object has no
`blockDuration` property. -/
structure Decision where
  allowed : Bool
  remaining : Int
  resetTime : Int
  blocked : Bool
  blockDuration : Option Int
deriving DecidableEq

/-- The decision built in `isAllowed`'s catch block: fail open. -/
def failOpenDecision (cfg : RateLimitConfig) (now : Int) : Decision :=
  { allowed := true, remaining := (cfg.maxRequests : Int) - 1,
    resetTime := now + (cfg.windowMs : Int), blocked := false,
    blockDuration := none }

/-- Embedding of `RateLimiter.isAllowed(identifier)` (rateLimiter.js), error-free run:
check the block key's TTL; else prune the window, count, either set a block
(`setex` for `Math.ceil(blockDurationMs/1000)` seconds) and reject, or record
the request (`zadd` of `now`) and admit.  Returns the decision and the
updated per-identifier state. -/
def isAllowed (cfg : RateLimitConfig) (st : RLState) (now : Int) :
    Decision × RLState :=
  if 0 < redisTtl st.blockUntil now then
    ({ allowed := false, remaining := 0,
       resetTime := now + redisTtl st.blockUntil now * 1000,
       blocked := true,
       blockDuration := some (redisTtl st.blockUntil now * 1000) }, st)
  else if cfg.maxRequests ≤ (pruneEvents st.events (now - (cfg.windowMs : Int))).length then
    ({ allowed := false, remaining := 0,
       resetTime :=
         match (pruneEvents st.events (now - (cfg.windowMs : Int))).min? with
         | some o => o + (cfg.windowMs : Int)
         | none => now + (cfg.windowMs : Int),
       blocked := true, blockDuration := some (cfg.blockDurationMs : Int) },
     { events := pruneEvents st.events (now - (cfg.windowMs : Int)),
       blockUntil := some (now + (((cfg.blockDurationMs + 999) / 1000) * 1000 : Nat)) })
  else
    ({ allowed := true,
       remaining := (cfg.maxRequests : Int)
         - ((pruneEvents st.events (now - (cfg.windowMs : Int))).length + 1),
       resetTime := now + (cfg.windowMs : Int), blocked := false,
       blockDuration := none },
     { events := pruneEvents st.events (now - (cfg.windowMs : Int)) ++ [now],
       blockUntil := st.blockUntil })

/-- Embedding of `RateLimiter.getStatus(identifier)` (rateLimiter.js), error-free run:
same block check and pruning, then `remaining = Math.max(0, maxRequests -
currentRequests)` and `allowed = remaining > 0`; no event is added and no
block is set. -/
def getStatus (cfg : RateLimitConfig) (st : RLState) (now : Int) :
    Decision × RLState :=
  if 0 < redisTtl st.blockUntil now then
    ({ allowed := false, remaining := 0,
       resetTime := now + redisTtl st.blockUntil now * 1000,
       blocked := true,
       blockDuration := some (redisTtl st.blockUntil now * 1000) }, st)
  else
    ({ allowed := decide (0 < max 0 ((cfg.maxRequests : Int)
         - (pruneEvents st.events (now - (cfg.windowMs : Int))).length)),
       remaining := max 0 ((cfg.maxRequests : Int)
         - (pruneEvents st.events (now - (cfg.windowMs : Int))).length),
       resetTime := now + (cfg.windowMs : Int), blocked := false,
       blockDuration := none },
     { events := pruneEvents st.events (now - (cfg.windowMs : Int)),
       blockUntil := st.blockUntil })

/-- Run a sequence of `isAllowed` evaluations, collecting the decisions. -/
def runCalls (cfg : RateLimitConfig) (st : RLState) (times : List Int) :
    List Decision × RLState :=
  match times with
  | [] => ([], st)
  | t :: ts =>
    let r := isAllowed cfg st t
    let rest := runCalls cfg r.2 ts
    (r.1 :: rest.1, rest.2)

/-- Thirty-one request times for identifier "u1", all within 31 ms (well inside 1 s). -/
def scenarioTimes : List Int := (List.range 31).map (fun i => ((1000001 + i : Nat) : Int))

/-- The empty limiter state: no events, no block key. -/
def emptyRL : RLState := { events := [], blockUntil := none }

/-- Outcome of the store during one evaluation: every operation succeeds, or
the k-th Redis call issued by the evaluation raises. -/
inductive StoreFate where
  | ok : StoreFate
  | failAt (k : Nat) : StoreFate
deriving DecidableEq

/-- Whether the n-th store operation of a run raises under the given fate. -/
def opFails : StoreFate → Nat → Bool
  | .ok, _ => false
  | .failAt k, n => decide (k = n)

/-- Embedding of `RateLimiter.isAllowed` with the store modelled as fallible.  The Redis
calls are numbered in program order: 1 `ttl`, 2 `zremrangebyscore`, 3 `zcard`,
then on the reject path 4 `setex`, 5 `zrange`, and on the admit path 4 `zadd`,
5 `expire`.  A raise at any point lands in the catch block, which returns the
fail-open decision; mutations already performed stay in the state.  The third
component records whether the catch block ran. -/
def isAllowedF (cfg : RateLimitConfig) (st : RLState) (now : Int)
    (fate : StoreFate) : Decision × RLState × Bool :=
  if opFails fate 1 then (failOpenDecision cfg now, st, true)
  else if 0 < redisTtl st.blockUntil now then
    ({ allowed := false, remaining := 0,
       resetTime := now + redisTtl st.blockUntil now * 1000,
       blocked := true,
       blockDuration := some (redisTtl st.blockUntil now * 1000) }, st, false)
  else if opFails fate 2 then (failOpenDecision cfg now, st, true)
  else if opFails fate 3 then
    (failOpenDecision cfg now,
     { events := pruneEvents st.events (now - (cfg.windowMs : Int)),
       blockUntil := st.blockUntil }, true)
  else if cfg.maxRequests ≤ (pruneEvents st.events (now - (cfg.windowMs : Int))).length then
    if opFails fate 4 then
      (failOpenDecision cfg now,
       { events := pruneEvents st.events (now - (cfg.windowMs : Int)),
         blockUntil := st.blockUntil }, true)
    else if opFails fate 5 then
      (failOpenDecision cfg now,
       { events := pruneEvents st.events (now - (cfg.windowMs : Int)),
         blockUntil := some (now + (((cfg.blockDurationMs + 999) / 1000) * 1000 : Nat)) }, true)
    else
      ({ allowed := false, remaining := 0,
         resetTime :=
           match (pruneEvents st.events (now - (cfg.windowMs : Int))).min? with
           | some o => o + (cfg.windowMs : Int)
           | none => now + (cfg.windowMs : Int),
         blocked := true, blockDuration := some (cfg.blockDurationMs : Int) },
       { events := pruneEvents st.events (now - (cfg.windowMs : Int)),
         blockUntil := some (now + (((cfg.blockDurationMs + 999) / 1000) * 1000 : Nat)) }, false)
  else
    if opFails fate 4 then
      (failOpenDecision cfg now,
       { events := pruneEvents st.events (now - (cfg.windowMs : Int)),
         blockUntil := st.blockUntil }, true)
    else if opFails fate 5 then
      (failOpenDecision cfg now,
       { events := pruneEvents st.events (now - (cfg.windowMs : Int)) ++ [now],
         blockUntil := st.blockUntil }, true)
    else
      ({ allowed := true,
         remaining := (cfg.maxRequests : Int)
           - ((pruneEvents st.events (now - (cfg.windowMs : Int))).length + 1),
         resetTime := now + (cfg.windowMs : Int), blocked := false,
         blockDuration := none },
       { events := pruneEvents st.events (now - (cfg.windowMs : Int)) ++ [now],
         blockUntil := st.blockUntil }, false)

/-! ## SMS dispatch path (smsService.js) -/

/-- Successful response of the gateway client for one recipient. -/
structure GatewayResp where
  messageId : String
  status : String
  cost : String
deriving DecidableEq

/-- The value returned by `SMSService.sendSMS` on success (`success: true`
plus the rate-limit echo). -/
structure SendResult where
  messageId : String
  status : String
  cost : String
  remaining : Int
  resetTime : Int
deriving DecidableEq

/-- The errors thrown by `SMSService.sendSMS`, each with its `message`. -/
inductive SMSError where
  | rateLimited (seconds : Int) : SMSError
  | invalidPhone : SMSError
  | emptyMessage : SMSError
  | gateway (msg : String) : SMSError
deriving DecidableEq

/-- The `error.message` string of each thrown error, as built in sendSMS. -/
def SMSError.message : SMSError → String
  | .rateLimited s => "Rate limit exceeded. Blocked for " ++ toString s ++ " seconds"
  | .invalidPhone => "Invalid phone number format"
  | .emptyMessage => "Message cannot be empty"
  | .gateway m => m

/-- Embedding of `SMSService.isValidPhoneNumber`: the regex `^\+[1-9]\d{1,14}$` — a plus
sign, one digit 1-9, then 1 to 14 further digits 0-9, end of string. -/
def isValidPhoneNumber (s : String) : Bool :=
  match s.toList with
  | c0 :: c1 :: rest =>
    decide (c0 = '+') && decide ('1' ≤ c1) && decide (c1 ≤ '9') &&
    rest.all (fun d => decide ('0' ≤ d) && decide (d ≤ '9')) &&
    decide (1 ≤ rest.length) && decide (rest.length ≤ 14)
  | _ => false

/-- JS `String.prototype.includes`: substring test. -/
def strIncludes (hay needle : String) : Bool :=
  hay.toList.tails.any (fun t => needle.toList.isPrefixOf t)

/-- The non-retryable message fragments of `QueueProcessor.shouldRetry`. -/
def nonRetryableErrors : List String :=
  ["Rate limit exceeded", "Invalid phone number format",
   "Message cannot be empty", "Non-retryable error"]

/-- Embedding of `QueueProcessor.shouldRetry(error)`: retry unless the error message
contains one of the non-retryable fragments. -/
def shouldRetry (msg : String) : Bool :=
  !(nonRetryableErrors.any (fun s => strIncludes msg s))

/-- The spec's retry classification, stated from its words: an error is
non-retryable exactly when it is a validation failure (malformed recipient,
empty body) or an admission-control rejection; every other dispatch failure
(gateway or transport error) is retryable.  Reference definition for
comparison with `shouldRetry`. -/
def specNonRetryable : SMSError → Bool
  | .rateLimited _ => true
  | .invalidPhone => true
  | .emptyMessage => true
  | .gateway _ => false

/-- The data of one single-send job as submitted by the API route
(`{to, message, identifier, priority, metadata}`; the opaque `metadata`
object is omitted, `to` is named `recipient`). -/
structure SMSRequest where
  recipient : String
  message : String
  identifier : String
  priority : Int
deriving DecidableEq

/-- Embedding of `SMSService.sendSMS({to, message, identifier})`, with the gateway call's
outcome supplied as `gw` and the caller's limiter state threaded explicitly:
rate-limit check first (throwing `Rate limit exceeded. Blocked for
Math.ceil(blockDuration/1000) seconds` when not allowed), then phone-format
validation, then the empty-message check, then the gateway call.  The log
append performed in both exits is modelled separately by `logSMSDelivery`.
`Math.ceil(x/1000)` is `(x+999)/1000` for the nonnegative durations that
reach it. -/
def sendSMS (cfg : RateLimitConfig) (st : RLState) (now : Int)
    (recipient message : String) (gw : Except String GatewayResp) :
    Except SMSError SendResult × RLState :=
  if (isAllowed cfg st now).1.allowed = false then
    (.error (.rateLimited ((((isAllowed cfg st now).1.blockDuration.getD 0 + 999).toNat / 1000 : Nat) : Int)),
     (isAllowed cfg st now).2)
  else if isValidPhoneNumber recipient = false then
    (.error .invalidPhone, (isAllowed cfg st now).2)
  else if message.trim.length = 0 then
    (.error .emptyMessage, (isAllowed cfg st now).2)
  else
    match gw with
    | .error m => (.error (.gateway m), (isAllowed cfg st now).2)
    | .ok resp =>
      (.ok { messageId := resp.messageId, status := resp.status, cost := resp.cost,
             remaining := (isAllowed cfg st now).1.remaining,
             resetTime := (isAllowed cfg st now).1.resetTime },
       (isAllowed cfg st now).2)

/-- What `QueueProcessor.processSMSJob` does with one job's dispatch outcome:
on success the job completes; on error the original error is re-thrown when
`shouldRetry` accepts it (feeding the queue's retry mechanism), otherwise a
wrapped `Non-retryable error: ...` is thrown, which the retry classifier
rejects, so the job goes to Failed without a retry. -/
inductive ProcessOutcome where
  | completed (r : SendResult) : ProcessOutcome
  | retryFail (msg : String) : ProcessOutcome
  | permFail (msg : String) : ProcessOutcome
deriving DecidableEq

/-- Embedding of `QueueProcessor.processSMSJob(job)` for a job with data
`{to, message, identifier}`, against the identifier's limiter state. -/
def processSMSJob (cfg : RateLimitConfig) (st : RLState) (now : Int)
    (recipient message : String) (gw : Except String GatewayResp) :
    ProcessOutcome × RLState :=
  match sendSMS cfg st now recipient message gw with
  | (.ok r, st2) => (.completed r, st2)
  | (.error e, st2) =>
    if shouldRetry e.message then (.retryFail e.message, st2)
    else (.permFail ("Non-retryable error: " ++ e.message), st2)

/-! ## Queue processor: enqueue and bulk enqueue (queueProcessor.js, api.js) -/

/-- The options object passed to `addSMSJob` by the API layer. -/
structure AddOptions where
  priority : Option Int
  delay : Option Int
  identifier : Option String
deriving DecidableEq

/-- The resolved BullMQ job options built in `addSMSJob`. -/
structure JobOptions where
  attempts : Nat
  backoffDelay : Nat
  removeOnComplete : Nat
  removeOnFail : Nat
  priority : Int
  delay : Int
  identifier : Option String
deriving DecidableEq

/-- The `jobOptions` built in `addSMSJob`: retry config plus retention counts, with
`priority`/`delay` defaulting to 0 and the remaining caller options spread. -/
def mkJobOptions (rc : RetryConfig) (o : AddOptions) : JobOptions :=
  { attempts := rc.maxAttempts, backoffDelay := rc.delay,
    removeOnComplete := 100, removeOnFail := 50,
    priority := o.priority.getD 0, delay := o.delay.getD 0,
    identifier := o.identifier }

/-- A queued job: id assigned at enqueue, caller data, resolved options. -/
structure Job (α : Type) where
  id : Nat
  data : α
  opts : JobOptions
deriving DecidableEq

/-- Embedding of `QueueProcessor.addSMSJob(smsData, options)`: `queue.add` either appends
a job (id `nid`) and returns it, or raises a store error, which addSMSJob
rethrows.  The rate limiter is not consulted here. -/
def addSMSJob {α : Type} (q : List (Job α)) (nid : Nat) (data : α)
    (o : AddOptions) (rc : RetryConfig) (fate : Option String) :
    Except String (Job α × List (Job α)) :=
  match fate with
  | some e => .error e
  | none =>
    let j : Job α := { id := nid, data := data, opts := mkJobOptions rc o }
    .ok (j, q ++ [j])

/-- One element of the list returned by `addBulkSMSJobs`. -/
structure BulkResult (α : Type) where
  smsData : α
  jobId : Option Nat
  error : Option String
  success : Bool
deriving DecidableEq

/-- Embedding of `QueueProcessor.addBulkSMSJobs(messages, options)`: enqueue each message
in order inside its own try/catch, recording a per-item success or failure;
`fates i` is the store's behaviour for the i-th item's `queue.add`. -/
def addBulkSMSJobs {α : Type} (q : List (Job α)) (nid : Nat)
    (msgs : List α) (o : AddOptions) (rc : RetryConfig)
    (fates : Nat → Option String) :
    List (BulkResult α) × List (Job α) × Nat :=
  match msgs with
  | [] => ([], q, nid)
  | m :: rest =>
    match addSMSJob q nid m o rc (fates 0) with
    | .ok (j, q1) =>
      let r := addBulkSMSJobs q1 (nid + 1) rest o rc (fun i => fates (i + 1))
      ({ smsData := m, jobId := some j.id, error := none, success := true } :: r.1,
       r.2.1, r.2.2)
    | .error e =>
      let r := addBulkSMSJobs q nid rest o rc (fun i => fates (i + 1))
      ({ smsData := m, jobId := none, error := some e, success := false } :: r.1,
       r.2.1, r.2.2)

/-- One item of a bulk request body: `{to, message}` (a missing JS field is
modelled as the empty string, which is equally falsy). -/
structure BulkMessage where
  recipient : String
  message : String
deriving DecidableEq

/-- The HTTP response of the bulk route, reduced to its decision content. -/
inductive BulkResponse where
  | badRequest (error : String) : BulkResponse
  | accepted (total successful failed : Nat)
      (results : List (BulkResult BulkMessage)) : BulkResponse
deriving DecidableEq

/-- Embedding of `APIRouter.sendBulkSMS` (api.js): reject the whole request with 400 when
the messages array is missing/empty or when ANY item lacks `to` or `message`;
otherwise enqueue all items via `addBulkSMSJobs` and answer 202 with the
per-item results. -/
def sendBulkSMSRoute (q : List (Job BulkMessage)) (nid : Nat)
    (messages : List BulkMessage) (identifier : Option String)
    (priority : Option Int) (rc : RetryConfig) (fates : Nat → Option String) :
    BulkResponse × List (Job BulkMessage) × Nat :=
  if messages.isEmpty then
    (.badRequest "Missing or invalid messages array", q, nid)
  else if messages.any (fun m => decide (m.recipient = "") || decide (m.message = "")) then
    (.badRequest "Each message must contain to and message fields", q, nid)
  else
    let r := addBulkSMSJobs q nid messages
      { priority := some (priority.getD 0), delay := none,
        identifier := some (identifier.getD "bulk-api") } rc fates
    (.accepted messages.length
      (r.1.filter (fun x => x.success)).length
      (r.1.filter (fun x => !x.success)).length r.1, r.2.1, r.2.2)

/-! ## Delivery log (smsService.js, `logSMSDelivery`) -/

/-- One entry of the `sms_delivery_logs` list. -/
structure DeliveryLogEntry where
  timestamp : Int
  recipient : String
  message : String
  status : String
  apiResponse : Option GatewayResp
  error : Option String
deriving DecidableEq

/-- The log entry built by `SMSService.logSMSDelivery`: the recipient is
stored as passed, the message is truncated to 100 characters with an
ellipsis. -/
def mkLogEntry (now : Int) (recipient message status : String)
    (apiResponse : Option GatewayResp) (err : Option String) : DeliveryLogEntry :=
  { timestamp := now, recipient := recipient,
    message := message.take 100 ++ (if 100 < message.length then "..." else ""),
    status := status, apiResponse := apiResponse, error := err }

/-- Effect of `logSMSDelivery` on the `sms_delivery_logs` list: `lpush` the
entry, `ltrim 0 999` (newest first, last 1000 kept). -/
def logSMSDelivery (logs : List DeliveryLogEntry) (now : Int)
    (recipient message status : String) (apiResponse : Option GatewayResp)
    (err : Option String) : List DeliveryLogEntry :=
  (mkLogEntry now recipient message status apiResponse err :: logs).take 1000

/-- A concrete send request used in concrete-input theorems. -/
def exReq : SMSRequest :=
  { recipient := "+254712345678", message := "hello", identifier := "u1", priority := 0 }

/-- Concrete enqueue options used in concrete-input theorems. -/
def exOpts : AddOptions := { priority := none, delay := none, identifier := none }

/-- A limiter state whose identifier is blocked until t = 1300000 ms. -/
def exBlocked : RLState := { events := [], blockUntil := some 1300000 }

/-- A concrete bulk batch whose second item has an empty message body. -/
def exBulkMsgs : List BulkMessage :=
  [{ recipient := "+254700000001", message := "hello" },
   { recipient := "+254700000002", message := "" },
   { recipient := "+254700000003", message := "hi" }]

/-! ## Worker pool (spec model)

Modelled from the spec: the claim/execution engine of the worker pool is the
BullMQ library, not repository code — src only declares the worker with
`concurrency: 5` (queueProcessor.js `initialize`, queue.ts).  Following
spec §4.3/§5, a worker slot claims a Waiting job with an atomic
compare-and-set (the precondition and the transition to Active are one
step), an Active job finishes to Completed/Failed/Delayed releasing its
slot, and a Delayed job re-enters Waiting. -/

/-- Job lifecycle states (§3). -/
inductive JState where
  | waiting | active | completed | failed | delayed
deriving DecidableEq

/-- A pooled job: its state and, when Active, the slot that claimed it. -/
structure PJob where
  state : JState
  worker : Option Nat
deriving DecidableEq

/-- The slots currently holding a claim, one entry per claimed job. -/
def poolWorkers (p : List PJob) : List Nat := p.filterMap (fun j => j.worker)

/-- Number of jobs in the Active state. -/
def activeCount (p : List PJob) : Nat :=
  (p.filter (fun j => decide (j.state = JState.active))).length

/-- One transition of the pool with `conc` worker slots. -/
inductive PoolStep (conc : Nat) : List PJob → List PJob → Prop
  | submit (p : List PJob) :
      PoolStep conc p (p ++ [{ state := .waiting, worker := none }])
  | claim (pre post : List PJob) (w : Nat) (hw : w < conc)
      (hfree : ∀ j ∈ pre ++ post, j.worker ≠ some w) :
      PoolStep conc (pre ++ { state := .waiting, worker := none } :: post)
        (pre ++ { state := .active, worker := some w } :: post)
  | finish (pre post : List PJob) (w : Nat) (s : JState) (hs : s ≠ .active) :
      PoolStep conc (pre ++ { state := .active, worker := some w } :: post)
        (pre ++ { state := s, worker := none } :: post)
  | wake (pre post : List PJob) :
      PoolStep conc (pre ++ { state := .delayed, worker := none } :: post)
        (pre ++ { state := .waiting, worker := none } :: post)

/-- Pools reachable from the empty pool. -/
inductive PoolReachable (conc : Nat) : List PJob → Prop
  | init : PoolReachable conc []
  | step (p q : List PJob) (hp : PoolReachable conc p)
      (hs : PoolStep conc p q) : PoolReachable conc q

/-- The pool invariant: claims and the Active state coincide, every claim
names a real slot, and no slot holds two claims. -/
def PoolInv (conc : Nat) (p : List PJob) : Prop :=
  (∀ j ∈ p, j.worker.isSome = true → j.state = .active) ∧
  (∀ j ∈ p, j.state = .active → j.worker.isSome = true) ∧
  (poolWorkers p).Nodup ∧ (∀ w ∈ poolWorkers p, w < conc)

end SMSSystem

namespace SMSSystem

/-! ## Helper lemmas -/

/-- A positive `TTL` as soon as at least half a second remains. -/
theorem redisTtl_pos (b now : Int) (h : now + 500 ≤ b) : 0 < redisTtl (some b) now := by
  have hd : redisTtl (some b) now
      = if now < b then (((b - now + 500).toNat / 1000 : Nat) : Int) else -2 := rfl
  rw [hd, if_pos (by omega : now < b)]
  have h1 : 1 ≤ (b - now + 500).toNat / 1000 :=
    (Nat.le_div_iff_mul_le (by omega)).mpr (by omega)
  exact_mod_cast h1

/-- Under a live block, `isAllowed` rejects with `blocked = true` and leaves
the state untouched. -/
theorem isAllowed_blocked_of_ttl (cfg : RateLimitConfig) (st : RLState) (now : Int)
    (h : 0 < redisTtl st.blockUntil now) :
    isAllowed cfg st now =
      ({ allowed := false, remaining := 0,
         resetTime := now + redisTtl st.blockUntil now * 1000,
         blocked := true,
         blockDuration := some (redisTtl st.blockUntil now * 1000) }, st) := by
  unfold isAllowed
  rw [if_pos h]

/-- A needle that is a prefix of the haystack is found by `includes`. -/
theorem strIncludes_of_prefix (hay needle : String)
    (h : needle.toList <+: hay.toList) : strIncludes hay needle = true := by
  unfold strIncludes
  rw [List.any_eq_true]
  exact ⟨hay.toList, (List.mem_tails _ _).mpr (List.suffix_refl _),
    List.isPrefixOf_iff_prefix.mpr h⟩

/-- Every rate-limit error message is classified non-retryable, whatever the
reported number of seconds. -/
theorem shouldRetry_rateLimited (s : Int) :
    shouldRetry (SMSError.rateLimited s).message = false := by
  have hpre : ("Rate limit exceeded").toList <+: (SMSError.rateLimited s).message.toList := by
    show ("Rate limit exceeded").toList <+:
      ("Rate limit exceeded. Blocked for " ++ toString s ++ " seconds").toList
    have h0 : ("Rate limit exceeded").toList <+: ("Rate limit exceeded. Blocked for ").toList := by
      decide
    have h1 : ("Rate limit exceeded. Blocked for " ++ toString s ++ " seconds").toList
        = ("Rate limit exceeded. Blocked for ").toList ++ (toString s ++ " seconds").toList := by
      simp
    rw [h1]
    exact h0.trans (List.prefix_append _ _)
  have hinc := strIncludes_of_prefix _ _ hpre
  unfold shouldRetry nonRetryableErrors
  simp [hinc]

/-! ## Claim C2 -/

/-- Claim C2, counterexample: at time 1000000 the identifier of `exReq` is
blocked (`isAllowed` would reject it), yet submitting the request enqueues
it unconditionally — `addSMSJob` consults no limiter state and the rejected
request does become a Job in the queue. -/
theorem C2_counterexample :
    0 < redisTtl exBlocked.blockUntil 1000000
    ∧ (isAllowed defaultRateLimit exBlocked 1000000).1.allowed = false
    ∧ addSMSJob ([] : List (Job SMSRequest)) 1 exReq exOpts defaultRetry none
        = .ok ({ id := 1, data := exReq, opts := mkJobOptions defaultRetry exOpts },
               [{ id := 1, data := exReq, opts := mkJobOptions defaultRetry exOpts }]) := by
  exact ⟨by decide, by decide, rfl⟩

/-- Claim C2, amended: every send request is enqueued as a Job without any
admission evaluation; the rate limiter is consulted only in the worker's
dispatch path.  A request whose identifier is blocked still enqueues
successfully, and when the worker processes it, `sendSMS` throws a rate-limit
error that the retry classifier marks non-retryable, so the job fails without
being retried (the limiter state is left unchanged). -/
theorem C2_admission_checked_at_dispatch (q : List (Job SMSRequest)) (nid : Nat)
    (req : SMSRequest) (o : AddOptions) (rc : RetryConfig) (cfg : RateLimitConfig)
    (st : RLState) (now : Int) (gw : Except String GatewayResp)
    (hb : 0 < redisTtl st.blockUntil now) :
    addSMSJob q nid req o rc none
      = .ok ({ id := nid, data := req, opts := mkJobOptions rc o },
             q ++ [{ id := nid, data := req, opts := mkJobOptions rc o }])
    ∧ ∃ msg, processSMSJob cfg st now req.recipient req.message gw
          = (.permFail ("Non-retryable error: " ++ msg), st)
        ∧ shouldRetry msg = false := by
  refine ⟨rfl, ?_⟩
  have hA := isAllowed_blocked_of_ttl cfg st now hb
  have hsend : sendSMS cfg st now req.recipient req.message gw
      = (.error (.rateLimited
          (((redisTtl st.blockUntil now * 1000 + 999).toNat / 1000 : Nat) : Int)), st) := by
    unfold sendSMS
    rw [hA]
    simp
  have hr := shouldRetry_rateLimited
    (((redisTtl st.blockUntil now * 1000 + 999).toNat / 1000 : Nat) : Int)
  refine ⟨(SMSError.rateLimited
    (((redisTtl st.blockUntil now * 1000 + 999).toNat / 1000 : Nat) : Int)).message, ?_, ?_⟩
  · unfold processSMSJob
    rw [hsend]
    simp [hr]
    exact shouldRetry_rateLimited _
  · exact shouldRetry_rateLimited _

/-- Witness for C2's amended theorem at a concrete blocked state. -/
theorem C2_admission_checked_at_dispatch_witness :
    addSMSJob ([] : List (Job SMSRequest)) 1 exReq exOpts defaultRetry none
      = .ok ({ id := 1, data := exReq, opts := mkJobOptions defaultRetry exOpts },
             [{ id := 1, data := exReq, opts := mkJobOptions defaultRetry exOpts }])
    ∧ ∃ msg, processSMSJob defaultRateLimit exBlocked 1000000 exReq.recipient exReq.message
          (.error "gateway down")
        = (.permFail ("Non-retryable error: " ++ msg), exBlocked)
      ∧ shouldRetry msg = false :=
  C2_admission_checked_at_dispatch [] 1 exReq exOpts defaultRetry defaultRateLimit
    exBlocked 1000000 (.error "gateway down") (by decide)

/-! ## Claim C3 -/

/-- Claim C3, counterexample: a gateway (dispatch) failure whose message
happens to contain the fragment "Rate limit exceeded" is classified
non-retryable by `shouldRetry`, although it is neither a validation failure
nor an admission rejection — the classifier matches on message substrings,
not on error categories. -/
theorem C3_counterexample :
    shouldRetry (SMSError.gateway "Gateway timeout: Rate limit exceeded at provider").message
      = false
    ∧ specNonRetryable (SMSError.gateway "Gateway timeout: Rate limit exceeded at provider")
      = false := by
  exact ⟨by decide, rfl⟩

/-- Claim C3, amended: for every dispatch error whose gateway text does not
itself contain one of the reserved non-retryable fragments, `shouldRetry`
marks the error non-retryable exactly when it is a validation failure
(invalid phone, empty message) or a rate-limit rejection; every such gateway
or transport error is marked retryable. -/
theorem C3_retry_classification (e : SMSError)
    (hgw : ∀ m, e = .gateway m → ∀ s ∈ nonRetryableErrors, strIncludes m s = false) :
    (shouldRetry e.message = false ↔ specNonRetryable e = true) := by
  cases e with
  | rateLimited s =>
    exact ⟨fun _ => rfl, fun _ => shouldRetry_rateLimited s⟩
  | invalidPhone => exact ⟨fun _ => rfl, fun _ => by decide⟩
  | emptyMessage => exact ⟨fun _ => rfl, fun _ => by decide⟩
  | gateway m =>
    have h := hgw m rfl
    constructor
    · intro hfalse
      exfalso
      simp only [SMSError.message, shouldRetry, Bool.not_eq_false'] at hfalse
      rw [List.any_eq_true] at hfalse
      obtain ⟨s, hs, hinc⟩ := hfalse
      rw [h s hs] at hinc
      exact absurd hinc (by simp)
    · intro habs
      simp [specNonRetryable] at habs

/-- Witness for C3's amended theorem at the invalid-phone error. -/
theorem C3_retry_classification_witness :
    (shouldRetry SMSError.invalidPhone.message = false
      ↔ specNonRetryable SMSError.invalidPhone = true) :=
  C3_retry_classification SMSError.invalidPhone (fun m h => by simp at h)

/-! ## Claim C1 -/

set_option maxRecDepth 100000 in
/-- Claim C1: with window = 60 s, maxRequests = 30, block = 300 s, 31
`isAllowed` calls for one identifier within 1 s admit requests 1-30 with
`remaining` 29 down to 0, reject request 31 with `blocked = true` and a
reported `blockDuration` of exactly 300000 ms, keep the identifier blocked
at every time up to just short of 300 s after the violation (the block key's
TTL is second-granular), and admit again once the block has expired and the
window has cleared. -/
theorem C1_sliding_window_block (t : Int) (h1 : 1000031 < t) (h2 : t ≤ 1299531) :
    ((runCalls defaultRateLimit emptyRL scenarioTimes).1.map
        (fun d => (d.allowed, d.remaining, d.blocked, d.blockDuration)))
      = (List.range 30).map
          (fun i => (true, ((29 - i : Nat) : Int), false, (none : Option Int)))
        ++ [(false, 0, true, some 300000)]
    ∧ (isAllowed defaultRateLimit (runCalls defaultRateLimit emptyRL scenarioTimes).2 t).1.blocked
        = true
    ∧ (isAllowed defaultRateLimit (runCalls defaultRateLimit emptyRL scenarioTimes).2 t).1.allowed
        = false
    ∧ (isAllowed defaultRateLimit (runCalls defaultRateLimit emptyRL scenarioTimes).2 1300031).1.allowed
        = true := by
  have hstate : (runCalls defaultRateLimit emptyRL scenarioTimes).2
      = { events := (List.range 30).map (fun i => ((1000001 + i : Nat) : Int)),
          blockUntil := some 1300031 } := by decide
  have httl : 0 < redisTtl ((runCalls defaultRateLimit emptyRL scenarioTimes).2).blockUntil t := by
    rw [hstate]
    exact redisTtl_pos 1300031 t (by omega)
  have hblocked := isAllowed_blocked_of_ttl defaultRateLimit
    (runCalls defaultRateLimit emptyRL scenarioTimes).2 t httl
  refine ⟨by decide, ?_, ?_, ?_⟩
  · rw [hblocked]
  · rw [hblocked]
  · rw [hstate]
    decide

/-- Witness for C1 at a concrete time inside the block. -/
theorem C1_sliding_window_block_witness :
    (isAllowed defaultRateLimit (runCalls defaultRateLimit emptyRL scenarioTimes).2 1100000).1.blocked
      = true
    ∧ (isAllowed defaultRateLimit (runCalls defaultRateLimit emptyRL scenarioTimes).2 1100000).1.allowed
      = false :=
  ⟨(C1_sliding_window_block 1100000 (by omega) (by omega)).2.1,
   (C1_sliding_window_block 1100000 (by omega) (by omega)).2.2.1⟩

/-! ## Claim C4 -/

/-- Claim C4, counterexample: on the same state (no events, no block) at the
same time, `evaluate` reports `remaining = 29` while `getStatus` reports
`remaining = 30` — they do not return the same remaining value. -/
theorem C4_counterexample :
    (isAllowed defaultRateLimit emptyRL 1000000).1.remaining = 29 ∧
    (getStatus defaultRateLimit emptyRL 1000000).1.remaining = 30 := by
  decide

/-- Claim C4, amended: on the same stored state and time, `isAllowed` and
`getStatus` return the same `allowed`; `getStatus` reports the capacity left
before admission, which exceeds the `remaining` reported by an admitting
`isAllowed` by exactly one (they agree when the request is rejected); and
`getStatus` never changes the block state. -/
theorem C4_evaluate_getStatus_agree (cfg : RateLimitConfig) (st : RLState) (now : Int) :
    (isAllowed cfg st now).1.allowed = (getStatus cfg st now).1.allowed
    ∧ (getStatus cfg st now).1.remaining
        = (isAllowed cfg st now).1.remaining
          + (if (isAllowed cfg st now).1.allowed = true then 1 else 0)
    ∧ (getStatus cfg st now).2.blockUntil = st.blockUntil := by
  unfold isAllowed getStatus
  by_cases h : 0 < redisTtl st.blockUntil now
  · simp only [if_pos h]
    simp
  · simp only [if_neg h]
    by_cases hc : cfg.maxRequests ≤ (pruneEvents st.events (now - (cfg.windowMs : Int))).length
    · simp only [if_pos hc]
      refine ⟨?_, ?_, by trivial⟩
      · symm
        rw [decide_eq_false_iff_not, lt_max_iff]
        push_neg
        exact ⟨by omega, by omega⟩
      · rw [max_eq_left (by omega :
          (cfg.maxRequests : Int)
            - ((pruneEvents st.events (now - (cfg.windowMs : Int))).length : Int) ≤ 0)]
        simp
    · simp only [if_neg hc]
      refine ⟨?_, ?_, by trivial⟩
      · symm
        rw [decide_eq_true_eq, lt_max_iff]
        right
        omega
      · rw [max_eq_right (by omega : (0 : Int)
            ≤ (cfg.maxRequests : Int)
              - ((pruneEvents st.events (now - (cfg.windowMs : Int))).length : Int))]
        rw [if_pos (by trivial)]
        omega

/-! ## Claim C5 -/

/-- Claim C5, counterexample: `getStatus` is not a pure read of the stored
event set — on a state holding one expired event (score 0) at time 70000 it
removes the event (`zremrangebyscore`), leaving a different stored set. -/
theorem C5_counterexample :
    (getStatus defaultRateLimit { events := [0], blockUntil := none } 70000).2.events = []
    ∧ (getStatus defaultRateLimit { events := [0], blockUntil := none } 70000).2.events
        ≠ [0] := by
  decide

/-- Claim C5, amended: `getStatus` never mutates the block state, never adds
an event, and removes only events outside the trailing window: the stored
event list after the call is a sublist of the one before, and every
in-window event survives. -/
theorem C5_getStatus_pure_within_window (cfg : RateLimitConfig) (st : RLState)
    (now e : Int) (he : e ∈ st.events)
    (hin : ¬(0 ≤ e ∧ e ≤ now - (cfg.windowMs : Int))) :
    (getStatus cfg st now).2.blockUntil = st.blockUntil
    ∧ (getStatus cfg st now).2.events.Sublist st.events
    ∧ e ∈ (getStatus cfg st now).2.events := by
  unfold getStatus
  by_cases h : 0 < redisTtl st.blockUntil now
  · rw [if_pos h]
    exact ⟨rfl, List.Sublist.refl _, he⟩
  · rw [if_neg h]
    refine ⟨rfl, List.filter_sublist _, ?_⟩
    simp only [pruneEvents, List.mem_filter]
    refine ⟨he, ?_⟩
    simp only [Bool.not_eq_eq_eq_not, Bool.not_true, Bool.and_eq_false_imp,
      decide_eq_true_eq, decide_eq_false_iff_not]
    intro h0
    intro h1
    exact hin ⟨h0, h1⟩

/-- Witness for C5's amended theorem at a concrete in-window event. -/
theorem C5_getStatus_pure_within_window_witness :
    (getStatus defaultRateLimit { events := [50000], blockUntil := none } 70000).2.blockUntil
      = ({ events := [50000], blockUntil := none } : RLState).blockUntil
    ∧ (getStatus defaultRateLimit { events := [50000], blockUntil := none } 70000).2.events.Sublist
        ({ events := [50000], blockUntil := none } : RLState).events
    ∧ (50000 : Int) ∈ (getStatus defaultRateLimit { events := [50000], blockUntil := none } 70000).2.events :=
  C5_getStatus_pure_within_window defaultRateLimit
    { events := [50000], blockUntil := none } 70000 50000 (by decide) (by decide)

/-! ## Claim C6 -/

/-- Claim C6: whenever a store operation raises during `isAllowed`, the catch
block returns the fail-open decision — `allowed = true`, `blocked = false`,
`remaining = maxRequests - 1` — so a limiter-store outage never rejects a
request; in particular a store that is unreachable from the first call
(`failAt 1`) fails open with the state untouched. -/
theorem C6_fail_open (cfg : RateLimitConfig) (st : RLState) (now : Int)
    (fate : StoreFate) (h : (isAllowedF cfg st now fate).2.2 = true) :
    (isAllowedF cfg st now fate).1 = failOpenDecision cfg now
    ∧ (isAllowedF cfg st now fate).1.allowed = true
    ∧ isAllowedF cfg st now (.failAt 1) = (failOpenDecision cfg now, st, true) := by
  have hmain : (isAllowedF cfg st now fate).1 = failOpenDecision cfg now := by
    revert h
    unfold isAllowedF
    repeat' split
    all_goals simp
  refine ⟨hmain, by rw [hmain]; rfl, ?_⟩
  unfold isAllowedF
  rw [if_pos (by simp [opFails])]

/-- Witness for C6 at a store that raises on the second call (the prune). -/
theorem C6_fail_open_witness :
    (isAllowedF defaultRateLimit emptyRL 1000000 (.failAt 2)).2.2 = true
    ∧ (isAllowedF defaultRateLimit emptyRL 1000000 (.failAt 2)).1
        = failOpenDecision defaultRateLimit 1000000 :=
  ⟨by decide,
   (C6_fail_open defaultRateLimit emptyRL 1000000 (.failAt 2) (by decide)).1⟩

/-! ## Claim C8 -/

/-- Claim C8, failing input: logging a successful delivery to
"+254712345678" stores the full destination number verbatim in the log
entry — no masking is applied. -/
theorem C8_log_stores_full_recipient :
    (mkLogEntry 0 "+254712345678" "hello" "success" none none).recipient
      = "+254712345678"
    ∧ (logSMSDelivery [] 0 "+254712345678" "hello" "success" none none).map
        (fun e => e.recipient) = ["+254712345678"] := by
  constructor
  · rfl
  · rfl

/-! ## Claim C7 -/

/-- Claim C7, counterexample: a batch of three items whose second item has an
empty message body is rejected whole by the bulk API route with a single 400
error — nothing is enqueued, so the invalid item at index 1 does invalidate
the other two valid items (an all-or-nothing outcome). -/
theorem C7_counterexample :
    sendBulkSMSRoute [] 1 exBulkMsgs (some "bulk") (some 1) defaultRetry (fun _ => none)
      = (.badRequest "Each message must contain to and message fields", [], 1) := by
  rfl

/-- Claim C7, amended: at the queue layer, `addBulkSMSJobs` enqueues each
item independently and returns a per-item result list covering all N items,
where item i succeeds exactly when its own `queue.add` succeeds — one item's
enqueue failure never aborts or invalidates the others.  At the API layer,
however, an item missing `to`/`message` rejects the whole batch before any
enqueue (see the counterexample). -/
theorem C7_bulk_per_item_results {α : Type} (q : List (Job α)) (nid : Nat)
    (msgs : List α) (o : AddOptions) (rc : RetryConfig) (fates : Nat → Option String) :
    (addBulkSMSJobs q nid msgs o rc fates).1.length = msgs.length
    ∧ ((addBulkSMSJobs q nid msgs o rc fates).1.map (fun r => r.smsData) = msgs)
    ∧ ((addBulkSMSJobs q nid msgs o rc fates).1.map (fun r => r.success)
        = (List.range msgs.length).map (fun i => (fates i).isNone)) := by
  have hmain : ((addBulkSMSJobs q nid msgs o rc fates).1.map (fun r => r.smsData) = msgs)
      ∧ ((addBulkSMSJobs q nid msgs o rc fates).1.map (fun r => r.success)
          = (List.range msgs.length).map (fun i => (fates i).isNone)) := by
    induction msgs generalizing q nid fates with
    | nil => simp [addBulkSMSJobs]
    | cons m rest ih =>
      cases hf : fates 0 with
      | none =>
        have hrec := ih (q ++ [{ id := nid, data := m, opts := mkJobOptions rc o }])
          (nid + 1) (fun i => fates (i + 1))
        simp only [addBulkSMSJobs, addSMSJob, hf, List.map_cons, List.length_cons,
          List.range_succ_eq_map, List.map_map, Function.comp, Option.isNone_none]
        exact ⟨by rw [hrec.1], by rw [hrec.2]; rfl⟩
      | some e =>
        have hrec := ih q nid (fun i => fates (i + 1))
        simp only [addBulkSMSJobs, addSMSJob, hf, List.map_cons, List.length_cons,
          List.range_succ_eq_map, List.map_map, Function.comp, Option.isNone_some]
        exact ⟨by rw [hrec.1], by rw [hrec.2]; rfl⟩
  refine ⟨?_, hmain.1, hmain.2⟩
  have := congrArg List.length hmain.1
  simpa using this

/-! ## Claim C9 -/

/-- Under the coherence part of the pool invariant, the number of Active jobs
equals the number of issued claims. -/
theorem activeCount_eq_length_poolWorkers (p : List PJob)
    (h1 : ∀ j ∈ p, j.worker.isSome = true → j.state = .active)
    (h2 : ∀ j ∈ p, j.state = .active → j.worker.isSome = true) :
    activeCount p = (poolWorkers p).length := by
  induction p with
  | nil => rfl
  | cons j l ih =>
    have ih2 := ih (fun x hx hw => h1 x (List.mem_cons_of_mem _ hx) hw)
      (fun x hx hsx => h2 x (List.mem_cons_of_mem _ hx) hsx)
    by_cases hs : j.state = JState.active
    · have hw : j.worker.isSome = true := h2 j (List.mem_cons_self _ _) hs
      obtain ⟨w, hww⟩ := Option.isSome_iff_exists.mp hw
      have e1 : activeCount (j :: l) = activeCount l + 1 := by
        simp [activeCount, List.filter_cons, hs]
      have e2 : poolWorkers (j :: l) = w :: poolWorkers l := by
        simp [poolWorkers, List.filterMap_cons, hww]
      rw [e1, e2, List.length_cons, ih2]
    · have hw : j.worker = none := by
        cases hww : j.worker with
        | none => rfl
        | some w => exact absurd (h1 j (List.mem_cons_self _ _) (by simp [hww])) hs
      have e1 : activeCount (j :: l) = activeCount l := by
        simp [activeCount, List.filter_cons, hs]
      have e2 : poolWorkers (j :: l) = poolWorkers l := by
        simp [poolWorkers, List.filterMap_cons, hw]
      rw [e1, e2, ih2]

/-- Each pool transition preserves the pool invariant. -/
theorem poolInv_step (conc : Nat) (p q : List PJob) (hinv : PoolInv conc p)
    (hs : PoolStep conc p q) : PoolInv conc q := by
  obtain ⟨h1, h2, h3, h4⟩ := hinv
  cases hs with
  | submit p =>
    refine ⟨?_, ?_, ?_, ?_⟩
    · intro j hj hw
      rcases List.mem_append.mp hj with hj | hj
      · exact h1 j hj hw
      · simp at hj
        subst hj
        simp at hw
    · intro j hj hstate
      rcases List.mem_append.mp hj with hj | hj
      · exact h2 j hj hstate
      · simp at hj
        subst hj
        simp at hstate
    · simpa [poolWorkers, List.filterMap_append] using h3
    · intro w hw
      apply h4
      simpa [poolWorkers, List.filterMap_append] using hw
  | claim pre post w hw hfree =>
    have hsrc : poolWorkers (pre ++ { state := JState.waiting, worker := none } :: post)
        = poolWorkers pre ++ poolWorkers post := by
      simp [poolWorkers, List.filterMap_append, List.filterMap_cons]
    have htgt : poolWorkers (pre ++ { state := JState.active, worker := some w } :: post)
        = poolWorkers pre ++ w :: poolWorkers post := by
      simp [poolWorkers, List.filterMap_append, List.filterMap_cons]
    rw [hsrc] at h3 h4
    refine ⟨?_, ?_, ?_, ?_⟩
    · intro j hj hw2
      rcases List.mem_append.mp hj with hj | hj
      · exact h1 j (List.mem_append_left _ hj) hw2
      · rcases List.mem_cons.mp hj with hj | hj
        · subst hj
          rfl
        · exact h1 j (List.mem_append_right _ (List.mem_cons_of_mem _ hj)) hw2
    · intro j hj hstate
      rcases List.mem_append.mp hj with hj | hj
      · exact h2 j (List.mem_append_left _ hj) hstate
      · rcases List.mem_cons.mp hj with hj | hj
        · subst hj
          rfl
        · exact h2 j (List.mem_append_right _ (List.mem_cons_of_mem _ hj)) hstate
    · rw [htgt, List.nodup_middle, List.nodup_cons]
      refine ⟨?_, h3⟩
      intro hmem
      rcases List.mem_append.mp hmem with hm | hm
      · obtain ⟨j, hj, hjw⟩ := List.mem_filterMap.mp hm
        exact hfree j (List.mem_append_left _ hj) hjw
      · obtain ⟨j, hj, hjw⟩ := List.mem_filterMap.mp hm
        exact hfree j (List.mem_append_right _ hj) hjw
    · rw [htgt]
      intro x hx
      rcases List.mem_append.mp hx with hm | hm
      · exact h4 x (List.mem_append_left _ hm)
      · rcases List.mem_cons.mp hm with hm | hm
        · subst hm
          exact hw
        · exact h4 x (List.mem_append_right _ hm)
  | finish pre post w s hsne =>
    have hsrc : poolWorkers (pre ++ { state := JState.active, worker := some w } :: post)
        = poolWorkers pre ++ w :: poolWorkers post := by
      simp [poolWorkers, List.filterMap_append, List.filterMap_cons]
    have htgt : poolWorkers (pre ++ { state := s, worker := none } :: post)
        = poolWorkers pre ++ poolWorkers post := by
      simp [poolWorkers, List.filterMap_append, List.filterMap_cons]
    rw [hsrc] at h3 h4
    have hsub : List.Sublist (poolWorkers pre ++ poolWorkers post)
        (poolWorkers pre ++ w :: poolWorkers post) :=
      List.Sublist.append_left (List.sublist_cons_self _ _) _
    refine ⟨?_, ?_, ?_, ?_⟩
    · intro j hj hw2
      rcases List.mem_append.mp hj with hj | hj
      · exact h1 j (List.mem_append_left _ hj) hw2
      · rcases List.mem_cons.mp hj with hj | hj
        · subst hj
          simp at hw2
        · exact h1 j (List.mem_append_right _ (List.mem_cons_of_mem _ hj)) hw2
    · intro j hj hstate
      rcases List.mem_append.mp hj with hj | hj
      · exact h2 j (List.mem_append_left _ hj) hstate
      · rcases List.mem_cons.mp hj with hj | hj
        · subst hj
          exact absurd hstate hsne
        · exact h2 j (List.mem_append_right _ (List.mem_cons_of_mem _ hj)) hstate
    · rw [htgt]
      exact h3.sublist hsub
    · rw [htgt]
      intro x hx
      exact h4 x (hsub.subset hx)
  | wake pre post =>
    have hsrc : poolWorkers (pre ++ { state := JState.delayed, worker := none } :: post)
        = poolWorkers pre ++ poolWorkers post := by
      simp [poolWorkers, List.filterMap_append, List.filterMap_cons]
    have htgt : poolWorkers (pre ++ { state := JState.waiting, worker := none } :: post)
        = poolWorkers pre ++ poolWorkers post := by
      simp [poolWorkers, List.filterMap_append, List.filterMap_cons]
    rw [hsrc] at h3 h4
    refine ⟨?_, ?_, ?_, ?_⟩
    · intro j hj hw2
      rcases List.mem_append.mp hj with hj | hj
      · exact h1 j (List.mem_append_left _ hj) hw2
      · rcases List.mem_cons.mp hj with hj | hj
        · subst hj
          simp at hw2
        · exact h1 j (List.mem_append_right _ (List.mem_cons_of_mem _ hj)) hw2
    · intro j hj hstate
      rcases List.mem_append.mp hj with hj | hj
      · exact h2 j (List.mem_append_left _ hj) hstate
      · rcases List.mem_cons.mp hj with hj | hj
        · subst hj
          simp at hstate
        · exact h2 j (List.mem_append_right _ (List.mem_cons_of_mem _ hj)) hstate
    · rw [htgt]
      exact h3
    · rw [htgt]
      exact h4

/-- Every reachable pool satisfies the invariant. -/
theorem poolInv_reachable (conc : Nat) (p : List PJob) (h : PoolReachable conc p) :
    PoolInv conc p := by
  induction h with
  | init =>
    refine ⟨?_, ?_, ?_, ?_⟩ <;> simp [poolWorkers]
  | step p q hp hs ih => exact poolInv_step conc p q ih hs

/-- Claim C9: in every pool state reachable by submissions, atomic claims,
completions and delay wake-ups, at most `conc` jobs are Active at once, and
no worker slot holds two claims simultaneously (spec-modelled worker pool;
src fixes `concurrency: 5`). -/
theorem C9_worker_pool_concurrency (conc : Nat) (p : List PJob)
    (h : PoolReachable conc p) :
    activeCount p ≤ conc ∧ (poolWorkers p).Nodup := by
  obtain ⟨h1, h2, h3, h4⟩ := poolInv_reachable conc p h
  refine ⟨?_, h3⟩
  rw [activeCount_eq_length_poolWorkers p h1 h2]
  have hsub : poolWorkers p ⊆ List.range conc := fun w hwp => List.mem_range.mpr (h4 w hwp)
  have hle := (h3.subperm hsub).length_le
  simpa using hle

/-- Witness for C9 at a pool with one claimed job and concurrency 5. -/
theorem C9_worker_pool_concurrency_witness :
    activeCount [{ state := JState.active, worker := some 0 }] ≤ 5
    ∧ (poolWorkers [{ state := JState.active, worker := some 0 }]).Nodup := by
  have r1 : PoolReachable 5 ([] : List PJob) := PoolReachable.init
  have r2 : PoolReachable 5 ([] ++ [{ state := JState.waiting, worker := none }]) :=
    PoolReachable.step _ _ r1 (PoolStep.submit [])
  have r3 : PoolReachable 5 ([] ++ { state := JState.active, worker := some 0 } :: []) :=
    PoolReachable.step _ _ r2
      (PoolStep.claim [] [] 0 (by omega) (by intro j hj; simp at hj))
  exact C9_worker_pool_concurrency 5 _ r3

/-! ## Claim C10 -/

/-- Claim C10: `sendSMS` throws `Invalid phone number format` exactly when
the rate-limit check has passed and the recipient fails the phone pattern —
a rate-limited request gets the rate-limit error instead, and a matching
recipient proceeds past validation; and the phone pattern accepts exactly
the strings consisting of a plus sign, one digit 1-9, and 1 to 14 further
digits (the regex `^\+[1-9]\d{1,14}$`). -/
theorem C10_phone_validation (cfg : RateLimitConfig) (st : RLState) (now : Int)
    (recipient message : String) (gw : Except String GatewayResp) :
    ((sendSMS cfg st now recipient message gw).1 = .error .invalidPhone
      ↔ ((isAllowed cfg st now).1.allowed = true ∧ isValidPhoneNumber recipient = false))
    ∧ (isValidPhoneNumber recipient = true ↔
        ∃ c rest, recipient.toList = '+' :: c :: rest ∧ '1' ≤ c ∧ c ≤ '9'
          ∧ (∀ d ∈ rest, '0' ≤ d ∧ d ≤ '9') ∧ 1 ≤ rest.length ∧ rest.length ≤ 14) := by
  constructor
  · unfold sendSMS
    by_cases ha : (isAllowed cfg st now).1.allowed = false
    · rw [if_pos ha]
      constructor
      · intro h
        simp at h
      · rintro ⟨h1, _⟩
        rw [ha] at h1
        exact absurd h1 (by simp)
    · rw [if_neg ha]
      have ha2 : (isAllowed cfg st now).1.allowed = true := by
        cases hx : (isAllowed cfg st now).1.allowed
        · exact absurd hx ha
        · rfl
      by_cases hp : isValidPhoneNumber recipient = false
      · rw [if_pos hp]
        simp [ha2, hp]
      · rw [if_neg hp]
        by_cases hm : message.trim.length = 0
        · rw [if_pos hm]
          simp [hp]
        · rw [if_neg hm]
          cases gw <;> simp [hp]
  · unfold isValidPhoneNumber
    cases hsl : recipient.toList with
    | nil => simp [hsl]
    | cons a l =>
      cases l with
      | nil => simp [hsl]
      | cons b l2 =>
        simp only [hsl, Bool.and_eq_true, decide_eq_true_eq, List.all_eq_true,
          List.cons.injEq]
        constructor
        · rintro ⟨⟨⟨⟨⟨h0, h1⟩, h2⟩, h3⟩, h4⟩, h5⟩
          subst h0
          refine ⟨b, l2, ⟨rfl, rfl, rfl⟩, h1, h2, ?_, h4, h5⟩
          intro d hd
          have := h3 d hd
          simpa using this
        · rintro ⟨c, rest, ⟨h0, h1, h2⟩, h3, h4, h5, h6, h7⟩
          subst h0
          subst h1
          subst h2
          refine ⟨⟨⟨⟨⟨rfl, h3⟩, h4⟩, ?_⟩, h6⟩, h7⟩
          intro d hd
          simpa using h5 d hd

end SMSSystem
